import Mathlib

/-!
# Drone dispatch backend — shallow embedding and verification

This file embeds the dispatch core of `backend/index.js` (an Express server
managing drones, deliveries, flights and a flight history over a JSON store)
and proves or refutes the specification claims about it.

Modelling conventions:
* JavaScript numbers are modelled as exact rationals (`ℚ`); floating-point
  rounding is out of scope of every claim checked here.
* `haversineKm` is a transcendental function (sin/cos/atan2); the dispatch
  logic only consumes its result, so the embedding abstracts it as a
  parameter `distFn : Coord → Coord → ℚ` passed to `scheduleFlight`.
* `Date.now()`-based flight ids and ISO timestamps are wall-clock strings;
  the fresh flight id is passed in as a parameter, timestamps (pure metadata,
  used by no claim) are omitted.
* The JS store `db.json` is the `DB` structure; each HTTP handler becomes a
  function `DB → … → DB × Except ApiErr β` that returns the input `DB`
  unchanged on every error path (the handler returns before `writeDB`).
* JS truthiness on a number field is `= 0`, on a string field `= ""`,
  and on an optional field `Option.isNone`; `x || d` is `jsOr`.
-/

namespace DroneBackend

/-- A latitude/longitude pair, as consumed by the dispatch core. -/
structure Coord where
  lat : ℚ
  lon : ℚ
deriving DecidableEq, Repr

/-- A drone record as stored in `db.drones`. -/
structure Drone where
  id : String
  model : String
  maxWeightKg : ℚ
  maxRangeKm : ℚ
  batteryPercent : ℚ
deriving DecidableEq, Repr

/-- Delivery status values ever written by the backend
(`pending`, `in_transit`, `delivered`, `cancelled`). -/
inductive DeliveryStatus where
  | pending
  | in_transit
  | delivered
  | cancelled
deriving DecidableEq, Repr

/-- A delivery record as stored in `db.deliveries`. -/
structure Delivery where
  id : String
  weightKg : ℚ
  pickup : Coord
  dropoff : Coord
  status : DeliveryStatus
  priority : String
deriving DecidableEq, Repr

/-- A circular no-fly obstacle as stored in `db.obstacles`.  The backend in
`index.js` never reads this collection; it is carried for faithfulness to the
persisted layout used by `cleanup.js` and the test suite. -/
structure Obstacle where
  id : String
  lat : ℚ
  lon : ℚ
  radiusKm : ℚ
deriving DecidableEq, Repr

/-- Flight status values accepted by `PUT /flights/:id`. -/
inductive FlightStatus where
  | scheduled
  | in_progress
  | completed
  | cancelled
deriving DecidableEq, Repr

/-- Parses the `status` field of a `PUT /flights/:id` body; mirrors the
`valid.includes(newStatus)` check. -/
def FlightStatus.ofString : String → Option FlightStatus
  | "scheduled" => some .scheduled
  | "in_progress" => some .in_progress
  | "completed" => some .completed
  | "cancelled" => some .cancelled
  | _ => none

/-- A flight record as stored in `db.flights`.  `scheduledAt` and `displayId`
(a string derived from `orderNumber`) are presentation metadata kept for
faithfulness. -/
structure Flight where
  id : String
  deliveryId : String
  droneId : String
  distanceKm : ℚ
  requiredBattery : ℚ
  status : FlightStatus
  orderNumber : ℕ
  displayId : String
deriving DecidableEq, Repr

/-- An archived flight in `db.flightHistory`: the flight plus the
`removedReason` annotation (`removedAt` is a wall-clock string, omitted). -/
structure ArchivedFlight where
  flight : Flight
  removedReason : String
deriving DecidableEq, Repr

/-- The persisted store `db.json`. -/
structure DB where
  drones : List Drone
  deliveries : List Delivery
  flights : List Flight
  flightHistory : List ArchivedFlight
  obstacles : List Obstacle
  nextOrderNumber : ℕ
deriving DecidableEq, Repr

/-- JS `x || d` on an optional numeric field: absent or `0` (falsy) yields
the default. -/
def jsOrQ (x : Option ℚ) (d : ℚ) : ℚ :=
  match x with
  | none => d
  | some v => if v = 0 then d else v

/-- JS `x || d` on an optional string field: absent or `""` (falsy) yields
the default. -/
def jsOrStr (x : Option String) (d : String) : String :=
  match x with
  | none => d
  | some v => if v = "" then d else v

/-- Error responses the embedded handlers can produce. -/
inductive ApiErr where
  | idModelRequired        -- POST /drones: 'id and model required'
  | droneNotFound          -- 'Drone not found'
  | missingFields          -- POST /deliveries: 'missing fields'
  | deliveryNotFound       -- 'Delivery not found'
  | onlyPendingEdit        -- 'Only pending deliveries can be edited'
  | onlyPendingRemove      -- 'Only pending deliveries can be removed'
  | hasActiveFlight        -- 'Cannot remove delivery with active flight'
  | alreadyCancelled       -- 'Delivery already cancelled'
  | deliveryIdRequired     -- POST /flights: 'deliveryId required'
  | deliveryNotPending     -- 'Delivery not pending'
  | noCarrierCapacity      -- 'No drone can carry this weight'
  | noFeasibleDrone        -- 'No feasible drone available (range/battery)'
  | flightNotFound         -- 'Flight not found'
  | invalidStatus          -- PUT /flights/:id: 'Invalid status'
deriving DecidableEq, Repr

/-- Request body of `POST /drones`.  `pickup`-style object fields of the JS
body beyond the four used ones are ignored by the handler and omitted. -/
structure DroneReq where
  id : String
  model : String
  maxWeightKg : ℚ
  maxRangeKm : ℚ
  batteryPercent : Option ℚ
deriving DecidableEq, Repr

/-- `POST /drones`: requires truthy `id` and `model`, then pushes the drone
with `batteryPercent: d.batteryPercent || 100`. -/
def createDrone (db : DB) (d : DroneReq) : DB × Except ApiErr Unit :=
  if d.id = "" ∨ d.model = "" then (db, .error .idModelRequired)
  else
    ({ db with drones := db.drones ++
        [{ id := d.id, model := d.model, maxWeightKg := d.maxWeightKg,
           maxRangeKm := d.maxRangeKm,
           batteryPercent := jsOrQ d.batteryPercent 100 }] },
     .ok ())

/-- Body of `PUT /drones/:id`: each allowed field is applied when present. -/
structure DroneUpdate where
  model : Option String
  maxWeightKg : Option ℚ
  maxRangeKm : Option ℚ
  batteryPercent : Option ℚ
deriving DecidableEq, Repr

/-- `PUT /drones/:id`: applies the allowed fields of the body to the first
drone with the given id (`findIndex` then in-place field assignment). -/
def updateDrone (db : DB) (id : String) (body : DroneUpdate) :
    DB × Except ApiErr Unit :=
  match db.drones.find? (fun d => d.id = id) with
  | none => (db, .error .droneNotFound)
  | some old =>
    let upd : Drone :=
      { old with
        model := body.model.getD old.model,
        maxWeightKg := body.maxWeightKg.getD old.maxWeightKg,
        maxRangeKm := body.maxRangeKm.getD old.maxRangeKm,
        batteryPercent := body.batteryPercent.getD old.batteryPercent }
    ({ db with
       drones := db.drones.set (db.drones.findIdx (fun d => d.id = id)) upd },
     .ok ())

/-- Request body of `POST /deliveries`. -/
structure DeliveryReq where
  id : String
  weightKg : ℚ
  pickup : Coord
  dropoff : Coord
  priority : Option String
deriving DecidableEq, Repr

/-- `POST /deliveries`: the guard is JS truthiness
`!d.id || !d.weightKg || !d.pickup || !d.dropoff`; on a number `!x` holds
exactly for `0` (and `NaN`), so a negative `weightKg` passes.  `pickup` and
`dropoff` are structurally present in the typed request.  The stored record
gets `status: 'pending'` and `priority: d.priority || 'normal'`. -/
def createDelivery (db : DB) (d : DeliveryReq) : DB × Except ApiErr Unit :=
  if d.id = "" ∨ d.weightKg = 0 then (db, .error .missingFields)
  else
    ({ db with deliveries := db.deliveries ++
        [{ id := d.id, weightKg := d.weightKg, pickup := d.pickup,
           dropoff := d.dropoff, status := .pending,
           priority := jsOrStr d.priority "normal" }] },
     .ok ())

/-- Body of `PUT /deliveries/:id`. -/
structure DeliveryUpdate where
  weightKg : Option ℚ
  pickup : Option Coord
  dropoff : Option Coord
  priority : Option String
deriving DecidableEq, Repr

/-- `PUT /deliveries/:id`: only pending deliveries may be edited; applies the
allowed fields (`status` is not among them). -/
def updateDelivery (db : DB) (id : String) (body : DeliveryUpdate) :
    DB × Except ApiErr Unit :=
  match db.deliveries.find? (fun d => d.id = id) with
  | none => (db, .error .deliveryNotFound)
  | some old =>
    if old.status ≠ .pending then (db, .error .onlyPendingEdit)
    else
      let upd : Delivery :=
        { old with
          weightKg := body.weightKg.getD old.weightKg,
          pickup := body.pickup.getD old.pickup,
          dropoff := body.dropoff.getD old.dropoff,
          priority := body.priority.getD old.priority }
      ({ db with
         deliveries :=
           db.deliveries.set (db.deliveries.findIdx (fun d => d.id = id)) upd },
       .ok ())

/-- `DELETE /deliveries/:id`: refuses non-pending deliveries and deliveries
with an active flight, otherwise splices the delivery out. -/
def removeDelivery (db : DB) (id : String) : DB × Except ApiErr Delivery :=
  match db.deliveries.find? (fun d => d.id = id) with
  | none => (db, .error .deliveryNotFound)
  | some delv =>
    if delv.status ≠ .pending then (db, .error .onlyPendingRemove)
    else if (db.flights.find? (fun f => f.deliveryId = id)).isSome then
      (db, .error .hasActiveFlight)
    else
      ({ db with
         deliveries :=
           db.deliveries.eraseIdx (db.deliveries.findIdx (fun d => d.id = id)) },
       .ok delv)

/-- One entry of the `feasible` array built by `POST /flights`: the drone
together with `withinRange`, `requiredBattery` and `hasBattery`. -/
structure Cand where
  dr : Drone
  withinRange : Bool
  requiredBattery : ℚ
  hasBattery : Bool
deriving DecidableEq, Repr

/-- `Math.min(100, Math.ceil((distanceKm / dr.maxRangeKm) * 100 * 1.2))`,
in exact rational arithmetic. -/
def requiredBatteryFor (distanceKm : ℚ) (dr : Drone) : ℚ :=
  ((min 100 ⌈distanceKm / dr.maxRangeKm * 100 * (12 / 10 : ℚ)⌉ : ℤ) : ℚ)

/-- The candidate record built for one drone inside the `feasible` map. -/
def evalDrone (distanceKm : ℚ) (dr : Drone) : Cand :=
  { dr := dr,
    withinRange := decide (distanceKm ≤ dr.maxRangeKm),
    requiredBattery := requiredBatteryFor distanceKm dr,
    hasBattery := decide (requiredBatteryFor distanceKm dr ≤ dr.batteryPercent) }

/-- The remaining charge a candidate drone would be left with: the sort key
`batteryPercent - requiredBattery` of the `feasible.sort` comparator. -/
def residual (c : Cand) : ℚ := c.dr.batteryPercent - c.requiredBattery

/-- Scanning step of the argmax selection: keeps the current best unless a
strictly larger residual appears later. -/
def bestScan (best : Cand) : List Cand → Cand
  | [] => best
  | c :: cs => if residual best < residual c then bestScan c cs else bestScan best cs

/-- `feasible.sort((a, b) => (b.residual) - (a.residual))[0]`: JS `sort` is
stable (ES2019), so the head of the descending sort is the first element
attaining the maximal residual, which is what the scan computes. -/
def selectBest : List Cand → Option Cand
  | [] => none
  | c :: cs => some (bestScan c cs)

/-- The `feasible` list of `POST /flights`: drones filtered by carrying
capacity, mapped to candidates, filtered by `withinRange && hasBattery`. -/
def feasibleList (distanceKm : ℚ) (drones : List Drone) (weightKg : ℚ) :
    List Cand :=
  ((drones.filter (fun dr => weightKg ≤ dr.maxWeightKg)).map
      (evalDrone distanceKm)).filter
    (fun c => c.withinRange && c.hasBattery)

/-- `Number(distanceKm.toFixed(3))`: round to 3 decimal places (half away
from zero ties do not differ from `round` on any input below). -/
def roundTo3 (q : ℚ) : ℚ := ((round (q * 1000) : ℤ) : ℚ) / 1000

/-- `POST /flights { deliveryId }`.

`distFn` stands for `haversineKm` (transcendental, abstracted), `freshId`
for the wall-clock id `flight-${Date.now()}`.  Mirrors `index.js` lines
250-308: no `deliveryId` is rejected, the delivery must exist and be
pending, candidates must exist, the feasible set must be non-empty; then
the stable-sort winner is committed: drone battery debited (floored at 0),
delivery set `in_transit`, flight pushed, order number bumped.  The source
looks entities up with `find` and then `findIndex` with the same predicate;
both return the first match and are merged into one `findIdx?` here. -/
def scheduleFlight (distFn : Coord → Coord → ℚ) (freshId : String) (db : DB)
    (deliveryId : Option String) : DB × Except ApiErr Flight :=
  match deliveryId with
  | none => (db, .error .deliveryIdRequired)
  | some did =>
    match db.deliveries.find? (fun d => d.id = did) with
    | none => (db, .error .deliveryNotFound)
    | some delivery =>
      if delivery.status ≠ .pending then (db, .error .deliveryNotPending)
      else
        let candidates := db.drones.filter
          (fun dr => delivery.weightKg ≤ dr.maxWeightKg)
        if candidates = [] then (db, .error .noCarrierCapacity)
        else
          let distanceKm := distFn delivery.pickup delivery.dropoff
          let feasible := (candidates.map (evalDrone distanceKm)).filter
            (fun c => c.withinRange && c.hasBattery)
          match selectBest feasible with
          | none => (db, .error .noFeasibleDrone)
          | some chosen =>
            let flight : Flight :=
              { id := freshId, deliveryId := delivery.id,
                droneId := chosen.dr.id,
                distanceKm := roundTo3 distanceKm,
                requiredBattery := chosen.requiredBattery,
                status := .scheduled,
                orderNumber := db.nextOrderNumber,
                displayId := "Ordem de servico " ++
                  toString db.nextOrderNumber }
            let drones' :=
              db.drones.modify
                (fun d => { d with batteryPercent := max 0 (d.batteryPercent - chosen.requiredBattery) })
                (db.drones.findIdx (fun d => d.id = chosen.dr.id))
            let db1 : DB :=
              { db with
                drones := drones',
                deliveries :=
                  db.deliveries.modify (fun d => { d with status := .in_transit })
                    (db.deliveries.findIdx (fun d => d.id = delivery.id)),
                flights := db.flights ++ [flight],
                nextOrderNumber := db.nextOrderNumber + 1 }
            (db1, .ok flight)

/-- Battery credit used by every refund path:
`Math.min(100, (batteryPercent || 0) + requiredBattery)`.  On exact
rationals `b || 0` equals `b` (`0 || 0` is `0`). -/
def creditDrone (drones : List Drone) (droneId : String) (amount : ℚ) :
    List Drone :=
  drones.modify
    (fun d => { d with batteryPercent := min 100 (d.batteryPercent + amount) })
    (drones.findIdx (fun d => d.id = droneId))

/-- Delivery revert used by every refund path: set the first delivery with
this id back to `pending` when it is `in_transit`. -/
def revertDelivery (deliveries : List Delivery) (deliveryId : String) :
    List Delivery :=
  match deliveries.find? (fun d => d.id = deliveryId) with
  | none => deliveries
  | some d =>
    if d.status = .in_transit then
      deliveries.modify (fun d => { d with status := .pending })
        (deliveries.findIdx (fun d => d.id = deliveryId))
    else deliveries

/-- Mark the first delivery with this id `delivered` (unconditionally), as
the `completed` branch of `PUT /flights/:id` does. -/
def deliverDelivery (deliveries : List Delivery) (deliveryId : String) :
    List Delivery :=
  deliveries.modify (fun d => { d with status := .delivered })
    (deliveries.findIdx (fun d => d.id = deliveryId))

/-- `PUT /flights/:id` with a body carrying only `status` (the only field any
claim concerns; `scheduledAt` passes through unvalidated).  The status string
is validated, then the `cancelled` transition refunds battery and reverts an
`in_transit` delivery, the `completed` transition marks the delivery
`delivered`, and the status is overwritten unconditionally. -/
def updateFlightStatus (db : DB) (id : String) (newStatus : String) :
    DB × Except ApiErr Flight :=
  match db.flights.find? (fun f => f.id = id) with
  | none => (db, .error .flightNotFound)
  | some flight =>
    match FlightStatus.ofString newStatus with
    | none => (db, .error .invalidStatus)
    | some st =>
      let db1 : DB :=
        if st = .cancelled ∧ flight.status ≠ .cancelled then
          { db with
            drones := creditDrone db.drones flight.droneId flight.requiredBattery,
            deliveries := revertDelivery db.deliveries flight.deliveryId }
        else db
      let db2 : DB :=
        if st = .completed then
          { db1 with deliveries := deliverDelivery db1.deliveries flight.deliveryId }
        else db1
      let flight' := { flight with status := st }
      ({ db2 with
         flights := db2.flights.set (db2.flights.findIdx (fun f => f.id = id)) flight' },
       .ok flight')

/-- `DELETE /flights/:id`: splices the flight out, archives it with reason
`manual-delete:<id>`, reverts an `in_transit` delivery to `pending` and
credits the drone (`requiredBattery` is always defined in the embedding). -/
def removeFlight (db : DB) (id : String) : DB × Except ApiErr Flight :=
  match db.flights.find? (fun f => f.id = id) with
  | none => (db, .error .flightNotFound)
  | some flight =>
    ({ db with
       flights := db.flights.eraseIdx (db.flights.findIdx (fun f => f.id = id)),
       flightHistory := db.flightHistory ++
         [{ flight := flight, removedReason := "manual-delete:" ++ id }],
       deliveries := revertDelivery db.deliveries flight.deliveryId,
       drones := creditDrone db.drones flight.droneId flight.requiredBattery },
     .ok flight)

/-- `POST /deliveries/:id/cancel`: refuses an already-cancelled delivery;
archives the first active flight of the delivery (crediting its drone) when
one exists; marks the delivery `cancelled`. -/
def cancelDelivery (db : DB) (id : String) : DB × Except ApiErr Delivery :=
  match db.deliveries.find? (fun d => d.id = id) with
  | none => (db, .error .deliveryNotFound)
  | some delivery =>
    if delivery.status = .cancelled then (db, .error .alreadyCancelled)
    else
      let dbAfterFlight : DB :=
        match db.flights.find? (fun f => f.deliveryId = id) with
        | none => db
        | some flight =>
          { db with
            flights :=
              db.flights.eraseIdx (db.flights.findIdx (fun f => f.deliveryId = id)),
            flightHistory := db.flightHistory ++
              [{ flight := flight,
                 removedReason := "delivery-cancelled:" ++ id }],
            drones := creditDrone db.drones flight.droneId flight.requiredBattery }
      ({ dbAfterFlight with
         deliveries :=
           dbAfterFlight.deliveries.modify (fun d => { d with status := .cancelled })
             (dbAfterFlight.deliveries.findIdx (fun d => d.id = id)) },
       .ok { delivery with status := .cancelled })

/-- `DELETE /drones/:id`: splices the drone out; archives every flight of
the drone with reason `drone-deleted:<id>`, reverting each flight's
`in_transit` delivery to `pending`; keeps only other drones' flights. -/
def removeDrone (db : DB) (id : String) : DB × Except ApiErr Drone :=
  match db.drones.find? (fun d => d.id = id) with
  | none => (db, .error .droneNotFound)
  | some removed =>
    let flightsToArchive := db.flights.filter (fun f => f.droneId = id)
    let db1 : DB :=
      { db with
        drones := db.drones.eraseIdx (db.drones.findIdx (fun d => d.id = id)),
        flightHistory := db.flightHistory ++
          flightsToArchive.map (fun f =>
            { flight := f, removedReason := "drone-deleted:" ++ id }),
        deliveries := flightsToArchive.foldl
          (fun ds f => revertDelivery ds f.deliveryId) db.deliveries,
        flights := db.flights.filter (fun f => ¬f.droneId = id) }
    (db1, .ok removed)

/-! ## Generic list lemmas used by the verification -/

theorem mem_modify {α : Type} (l : List α) (g : α → α) (i : ℕ) :
    ∀ a ∈ l.modify g i, a ∈ l ∨ ∃ b ∈ l, a = g b := by
  induction l generalizing i with
  | nil =>
    intro a ha
    rw [List.modify_eq_self (by simp)] at ha
    simp at ha
  | cons x t ih =>
    intro a ha
    cases i with
    | zero =>
      rw [List.modify_zero_cons] at ha
      rcases List.mem_cons.mp ha with h | h
      · exact .inr ⟨x, by simp, h⟩
      · exact .inl (List.mem_cons_of_mem _ h)
    | succ n =>
      rw [List.modify_succ_cons] at ha
      rcases List.mem_cons.mp ha with h | h
      · exact .inl (by simp [h])
      · rcases ih n a h with h | ⟨b, hb, hab⟩
        · exact .inl (List.mem_cons_of_mem _ h)
        · exact .inr ⟨b, List.mem_cons_of_mem _ hb, hab⟩

theorem mem_modify_findIdx {α : Type} (l : List α) (p : α → Bool) (g : α → α) :
    ∀ a ∈ l.modify g (l.findIdx p),
      a ∈ l ∨ ∃ b, l.find? p = some b ∧ a = g b := by
  induction l with
  | nil => intro a ha; simp [List.modify] at ha
  | cons x t ih =>
    intro a ha
    rw [List.findIdx_cons] at ha
    cases hp : p x with
    | true =>
      rw [hp, cond_true, List.modify_zero_cons] at ha
      rcases List.mem_cons.mp ha with h | h
      · exact .inr ⟨x, by simp [List.find?_cons, hp], h⟩
      · exact .inl (List.mem_cons_of_mem _ h)
    | false =>
      rw [hp, cond_false, List.modify_succ_cons] at ha
      rcases List.mem_cons.mp ha with h | h
      · exact .inl (by simp [h])
      · rcases ih a h with h | ⟨b, hb, hab⟩
        · exact .inl (List.mem_cons_of_mem _ h)
        · exact .inr ⟨b, by simp [List.find?_cons, hp, hb], hab⟩

theorem find?_modify_findIdx {α : Type} (l : List α) (p : α → Bool) (g : α → α)
    (hg : ∀ a, p (g a) = p a) :
    (l.modify g (l.findIdx p)).find? p = (l.find? p).map g := by
  induction l with
  | nil => simp [List.modify]
  | cons x t ih =>
    rw [List.findIdx_cons]
    cases hp : p x with
    | true =>
      rw [cond_true, List.modify_zero_cons]
      simp [List.find?_cons, hp, hg]
    | false =>
      rw [cond_false, List.modify_succ_cons]
      simp only [List.find?_cons, hp]
      exact ih

theorem findIdx_modify_findIdx {α : Type} (l : List α) (p : α → Bool) (g : α → α)
    (hg : ∀ a, p (g a) = p a) :
    (l.modify g (l.findIdx p)).findIdx p = l.findIdx p := by
  induction l with
  | nil => simp [List.modify]
  | cons x t ih =>
    rw [List.findIdx_cons]
    cases hp : p x with
    | true =>
      rw [cond_true, List.modify_zero_cons, List.findIdx_cons, hg, hp, cond_true]
    | false =>
      rw [cond_false, List.modify_succ_cons, List.findIdx_cons, hp, cond_false, ih]

theorem modify_modify_findIdx {α : Type} (l : List α) (p : α → Bool) (g h : α → α)
    (hg : ∀ a, p (g a) = p a) :
    (l.modify g (l.findIdx p)).modify h
        ((l.modify g (l.findIdx p)).findIdx p) =
      l.modify (fun a => h (g a)) (l.findIdx p) := by
  rw [findIdx_modify_findIdx l p g hg]
  induction l with
  | nil => simp [List.modify]
  | cons x t ih =>
    rw [List.findIdx_cons]
    cases hp : p x with
    | true =>
      rw [cond_true, List.modify_zero_cons, List.modify_zero_cons,
        List.modify_zero_cons]
    | false =>
      rw [cond_false, List.modify_succ_cons, List.modify_succ_cons,
        List.modify_succ_cons, ih]

theorem modify_findIdx_eq_self {α : Type} (l : List α) (p : α → Bool) (g : α → α)
    (h : ∀ b, l.find? p = some b → g b = b) :
    l.modify g (l.findIdx p) = l := by
  induction l with
  | nil => simp [List.modify]
  | cons x t ih =>
    rw [List.findIdx_cons]
    cases hp : p x with
    | true =>
      rw [cond_true, List.modify_zero_cons, List.cons.injEq]
      exact ⟨h x (by simp [List.find?_cons, hp]), rfl⟩
    | false =>
      rw [cond_false, List.modify_succ_cons, List.cons.injEq]
      exact ⟨rfl, ih (fun b hb => h b (by simp [List.find?_cons, hp, hb]))⟩

theorem findIdx_append_eq_length {α : Type} (l : List α) (x : α) (p : α → Bool)
    (hl : l.find? p = none) (hx : p x = true) :
    (l ++ [x]).findIdx p = l.length := by
  induction l with
  | nil => simp [List.findIdx_cons, hx]
  | cons y t ih =>
    have hy : p y = false := by
      have := (List.find?_eq_none.mp hl) y (by simp)
      simpa using this
    have ht : t.find? p = none := by
      rw [List.find?_cons, hy] at hl
      exact hl
    simp only [List.cons_append, List.findIdx_cons, hy, cond_false, List.length_cons]
    rw [ih ht]

theorem eraseIdx_append_length {α : Type} (l : List α) (x : α) :
    (l ++ [x]).eraseIdx l.length = l := by
  rw [List.eraseIdx_append_of_length_le (le_refl l.length)]
  simp

theorem find?_eq_self_of_nodup {α : Type} (idOf : α → String) (l : List α)
    (hN : (l.map idOf).Nodup) (a : α) (ha : a ∈ l) :
    l.find? (fun b => idOf b = idOf a) = some a := by
  induction l with
  | nil => simp at ha
  | cons x t ih =>
    rcases List.mem_cons.mp ha with h | h
    · subst h
      simp [List.find?_cons]
    · have hx : idOf x ≠ idOf a := by
        intro hEq
        have : idOf a ∈ t.map idOf := List.mem_map_of_mem idOf h
        rw [← hEq] at this
        exact (List.nodup_cons.mp (by simpa using hN)).1 this
      rw [List.find?_cons]
      simp only [hx, decide_eq_true_eq, if_neg]
      have ht : (t.map idOf).Nodup := (List.nodup_cons.mp (by simpa using hN)).2
      simpa [hx] using ih ht h

/-! ## The argmax property of `selectBest` -/

theorem bestScan_first_argmax (best : Cand) (l : List Cand) :
    ∃ l1 l2, best :: l = l1 ++ bestScan best l :: l2 ∧
      (∀ x ∈ l1, residual x < residual (bestScan best l)) ∧
      (∀ x ∈ l2, residual x ≤ residual (bestScan best l)) := by
  induction l generalizing best with
  | nil => exact ⟨[], [], by simp [bestScan], by simp, by simp⟩
  | cons c cs ih =>
    by_cases h : residual best < residual c
    · rw [show bestScan best (c :: cs) = bestScan c cs by simp [bestScan, h]]
      obtain ⟨m1, m2, hdec, hlt, hle⟩ := ih c
      refine ⟨best :: m1, m2, by rw [List.cons_append, ← hdec], ?_, hle⟩
      intro x hx
      rcases List.mem_cons.mp hx with hx | hx
      · subst hx
        have hcmem : c ∈ m1 ++ bestScan c cs :: m2 := by
          rw [← hdec]; exact List.mem_cons_self c cs
        have hc : residual c ≤ residual (bestScan c cs) := by
          rcases List.mem_append.mp hcmem with hm | hm
          · exact le_of_lt (hlt c hm)
          · rcases List.mem_cons.mp hm with hm | hm
            · exact le_of_eq (congrArg residual hm)
            · exact hle c hm
        exact lt_of_lt_of_le h hc
      · exact hlt x hx
    · rw [show bestScan best (c :: cs) = bestScan best cs by simp [bestScan, h]]
      obtain ⟨m1, m2, hdec, hlt, hle⟩ := ih best
      cases m1 with
      | nil =>
        rw [List.nil_append] at hdec
        have hb : best = bestScan best cs := ((List.cons.injEq _ _ _ _).mp hdec).1
        have hcs : cs = m2 := ((List.cons.injEq _ _ _ _).mp hdec).2
        refine ⟨[], c :: cs, by rw [List.nil_append, ← hb], by simp, ?_⟩
        intro x hx
        rcases List.mem_cons.mp hx with hx | hx
        · subst hx; rw [← hb]; exact not_lt.mp h
        · rw [hcs] at hx; exact hle x hx
      | cons y m1t =>
        rw [List.cons_append] at hdec
        have hy : best = y := ((List.cons.injEq _ _ _ _).mp hdec).1
        have hcs : cs = m1t ++ bestScan best cs :: m2 :=
          ((List.cons.injEq _ _ _ _).mp hdec).2
        have hbestlt : residual best < residual (bestScan best cs) :=
          hlt best (by rw [hy]; exact List.mem_cons_self y m1t)
        refine ⟨best :: c :: m1t, m2,
          by rw [List.cons_append, List.cons_append, ← hcs], ?_, hle⟩
        intro x hx
        rcases List.mem_cons.mp hx with hx | hx
        · subst hx; exact hbestlt
        rcases List.mem_cons.mp hx with hx | hx
        · subst hx; exact lt_of_le_of_lt (not_lt.mp h) hbestlt
        · exact hlt x (List.mem_cons_of_mem _ hx)

theorem selectBest_first_argmax (l : List Cand) (c : Cand)
    (h : selectBest l = some c) :
    ∃ l1 l2, l = l1 ++ c :: l2 ∧
      (∀ x ∈ l1, residual x < residual c) ∧
      (∀ x ∈ l, residual x ≤ residual c) := by
  match l, h with
  | x :: xs, h =>
    have hc : bestScan x xs = c := by simpa [selectBest] using h
    obtain ⟨l1, l2, hdec, hlt, hle⟩ := bestScan_first_argmax x xs
    rw [hc] at hdec hlt hle
    refine ⟨l1, l2, hdec, hlt, ?_⟩
    intro z hz
    rcases List.mem_append.mp (by rw [← hdec]; exact hz) with hm | hm
    · exact le_of_lt (hlt z hm)
    · rcases List.mem_cons.mp hm with hm | hm
      · rw [hm]
      · exact hle z hm

theorem selectBest_mem (l : List Cand) (c : Cand) (h : selectBest l = some c) :
    c ∈ l := by
  obtain ⟨l1, l2, hdec, -, -⟩ := selectBest_first_argmax l c h
  rw [hdec]
  simp

/-! ## Structure of a successful `scheduleFlight` -/

/-- The exact post-state and flight produced by a successful `scheduleFlight`. -/
theorem scheduleFlight_ok_shape (distFn : Coord → Coord → ℚ) (fid : String)
    (db db1 : DB) (did : String) (f : Flight)
    (h : scheduleFlight distFn fid db (some did) = (db1, .ok f)) :
    ∃ delivery chosen,
      db.deliveries.find? (fun d => d.id = did) = some delivery ∧
      delivery.status = .pending ∧
      selectBest (feasibleList (distFn delivery.pickup delivery.dropoff)
        db.drones delivery.weightKg) = some chosen ∧
      f = { id := fid, deliveryId := delivery.id, droneId := chosen.dr.id,
            distanceKm := roundTo3 (distFn delivery.pickup delivery.dropoff),
            requiredBattery := chosen.requiredBattery, status := .scheduled,
            orderNumber := db.nextOrderNumber,
            displayId := "Ordem de servico " ++ toString db.nextOrderNumber } ∧
      db1 = { db with
              drones := db.drones.modify
                (fun d => { d with batteryPercent := max 0 (d.batteryPercent - chosen.requiredBattery) })
                (db.drones.findIdx (fun d => d.id = chosen.dr.id)),
              deliveries :=
                db.deliveries.modify (fun d => { d with status := .in_transit })
                  (db.deliveries.findIdx (fun d => d.id = delivery.id)),
              flights := db.flights ++ [f],
              nextOrderNumber := db.nextOrderNumber + 1 } := by
  rw [scheduleFlight] at h
  cases hfind : db.deliveries.find? (fun d => d.id = did) with
  | none => rw [hfind] at h; simp at h
  | some delivery =>
    rw [hfind] at h
    simp only at h
    by_cases hst : delivery.status ≠ DeliveryStatus.pending
    · rw [if_pos hst] at h; simp at h
    rw [if_neg hst] at h
    by_cases hc : db.drones.filter (fun dr => delivery.weightKg ≤ dr.maxWeightKg) = []
    · rw [if_pos hc] at h; simp at h
    rw [if_neg hc] at h
    cases hsel : selectBest (((db.drones.filter
        (fun dr => delivery.weightKg ≤ dr.maxWeightKg)).map
          (evalDrone (distFn delivery.pickup delivery.dropoff))).filter
        (fun c => c.withinRange && c.hasBattery)) with
    | none => rw [hsel] at h; simp at h
    | some chosen =>
      rw [hsel] at h
      simp only [Prod.mk.injEq, Except.ok.injEq] at h
      refine ⟨delivery, chosen, rfl, not_ne_iff.mp hst, ?_, h.2.symm, ?_⟩
      · rw [feasibleList]
        exact hsel
      · rw [← h.1, ← h.2]

/-- What membership in the `feasible` array means, read back through the
filters: the drone is registered, can carry the weight, and the stored
`requiredBattery` comes from the source formula, with range and battery
checks passed. -/
theorem mem_feasibleList (dist : ℚ) (drones : List Drone) (w : ℚ) (c : Cand)
    (hc : c ∈ feasibleList dist drones w) :
    c.dr ∈ drones ∧ w ≤ c.dr.maxWeightKg ∧
    c.requiredBattery = requiredBatteryFor dist c.dr ∧
    dist ≤ c.dr.maxRangeKm ∧
    requiredBatteryFor dist c.dr ≤ c.dr.batteryPercent := by
  rw [feasibleList] at hc
  obtain ⟨hmem, hpred⟩ := List.mem_filter.mp hc
  obtain ⟨dr, hdr, heq⟩ := List.mem_map.mp hmem
  obtain ⟨hdr2, hw⟩ := List.mem_filter.mp hdr
  subst heq
  simp only [evalDrone, Bool.and_eq_true, decide_eq_true_eq] at hpred
  exact ⟨hdr2, by simpa using hw, rfl, hpred.1, hpred.2⟩

/-! ## Concrete fixtures used by witnesses (spec scenario A with a 10 km
mission against a 100 km range drone, giving `requiredBattery = 12`) -/

def wDrone : Drone :=
  { id := "d1", model := "M", maxWeightKg := 10, maxRangeKm := 100,
    batteryPercent := 100 }

def wDelivery : Delivery :=
  { id := "del1", weightKg := 3, pickup := { lat := 0, lon := 0 },
    dropoff := { lat := 1, lon := 1 }, status := .pending, priority := "normal" }

def wDB : DB :=
  { drones := [wDrone], deliveries := [wDelivery], flights := [],
    flightHistory := [], obstacles := [], nextOrderNumber := 1 }

/-- Stands in for `haversineKm` on the fixture coordinates (10 km). -/
def wDist : Coord → Coord → ℚ := fun _ _ => 10

def wFlight : Flight :=
  { id := "f1", deliveryId := "del1", droneId := "d1", distanceKm := 10,
    requiredBattery := 12, status := .scheduled, orderNumber := 1,
    displayId := "Ordem de servico 1" }

def wDB1 : DB :=
  { drones := [{ wDrone with batteryPercent := 88 }],
    deliveries := [{ wDelivery with status := .in_transit }],
    flights := [wFlight], flightHistory := [], obstacles := [],
    nextOrderNumber := 2 }

theorem wSchedule_eval :
    scheduleFlight wDist "f1" wDB (some "del1") = (wDB1, .ok wFlight) := by
  simp [scheduleFlight, wDB, wDelivery, wDrone, wDist, evalDrone,
    requiredBatteryFor, selectBest, roundTo3, wFlight, wDB1, List.find?,
    List.filter, List.findIdx, List.findIdx.go, List.modify, List.modifyTailIdx]
  norm_num [bestScan]
  exact rfl

/-! ## Claim C1 -/

/-- C1: on a successful `scheduleFlight`, for each drone with
`maxWeightKg ≥ delivery.weightKg` the required battery is
`min(100, ceil((distanceKm / maxRangeKm) * 100 * 1.2))`
(`requiredBatteryFor`), only drones with `distanceKm ≤ maxRangeKm` and
`batteryPercent ≥ requiredBattery` survive (`feasibleList`), and the flight
is committed to the survivor maximizing `batteryPercent − requiredBattery`,
ties broken by input order: every survivor strictly earlier in the list has
a strictly smaller residual, and no survivor has a larger one. -/
theorem schedule_selects_first_best_residual
    (distFn : Coord → Coord → ℚ) (fid : String) (db db1 : DB) (did : String)
    (f : Flight)
    (h : scheduleFlight distFn fid db (some did) = (db1, .ok f)) :
    ∃ delivery, db.deliveries.find? (fun d => d.id = did) = some delivery ∧
      ∃ l1 c l2,
        feasibleList (distFn delivery.pickup delivery.dropoff) db.drones
            delivery.weightKg = l1 ++ c :: l2 ∧
        f.droneId = c.dr.id ∧
        f.requiredBattery = c.requiredBattery ∧
        c.requiredBattery =
          requiredBatteryFor (distFn delivery.pickup delivery.dropoff) c.dr ∧
        delivery.weightKg ≤ c.dr.maxWeightKg ∧
        distFn delivery.pickup delivery.dropoff ≤ c.dr.maxRangeKm ∧
        c.requiredBattery ≤ c.dr.batteryPercent ∧
        (∀ x ∈ l1, residual x < residual c) ∧
        (∀ x ∈ feasibleList (distFn delivery.pickup delivery.dropoff) db.drones
            delivery.weightKg, residual x ≤ residual c) := by
  obtain ⟨delivery, chosen, hfind, hpend, hsel, hf, hdb1⟩ :=
    scheduleFlight_ok_shape distFn fid db db1 did f h
  obtain ⟨l1, l2, hdec, hlt, hle⟩ := selectBest_first_argmax _ chosen hsel
  obtain ⟨-, hw, hreq, hrange, hbatt⟩ :=
    mem_feasibleList _ _ _ chosen (selectBest_mem _ chosen hsel)
  refine ⟨delivery, hfind, l1, chosen, l2, hdec, ?_, ?_, hreq, hw, hrange,
    hreq ▸ hbatt, hlt, hle⟩
  · rw [hf]
  · rw [hf]

/-- Witness for C1 at the concrete fixture. -/
theorem schedule_selects_first_best_residual_witness :
    ∃ delivery, wDB.deliveries.find? (fun d => d.id = "del1") = some delivery ∧
      ∃ l1 c l2,
        feasibleList (wDist delivery.pickup delivery.dropoff) wDB.drones
            delivery.weightKg = l1 ++ c :: l2 ∧
        wFlight.droneId = c.dr.id ∧
        wFlight.requiredBattery = c.requiredBattery ∧
        c.requiredBattery =
          requiredBatteryFor (wDist delivery.pickup delivery.dropoff) c.dr ∧
        delivery.weightKg ≤ c.dr.maxWeightKg ∧
        wDist delivery.pickup delivery.dropoff ≤ c.dr.maxRangeKm ∧
        c.requiredBattery ≤ c.dr.batteryPercent ∧
        (∀ x ∈ l1, residual x < residual c) ∧
        (∀ x ∈ feasibleList (wDist delivery.pickup delivery.dropoff) wDB.drones
            delivery.weightKg, residual x ≤ residual c) :=
  schedule_selects_first_best_residual wDist "f1" wDB wDB1 "del1" wFlight
    wSchedule_eval

/-! ## Claim C7 -/

/-- C7: whenever `scheduleFlight` returns an error (missing id, delivery not
found, delivery not pending, no carrier capacity, no feasible drone), the
store is returned unchanged — every error path exits before any write. -/
theorem schedule_error_preserves_db (distFn : Coord → Coord → ℚ)
    (fid : String) (db db1 : DB) (arg : Option String) (e : ApiErr)
    (h : scheduleFlight distFn fid db arg = (db1, .error e)) : db1 = db := by
  cases arg with
  | none =>
    rw [scheduleFlight] at h
    exact ((Prod.mk.injEq _ _ _ _).mp h).1.symm
  | some did =>
    rw [scheduleFlight] at h
    cases hfind : db.deliveries.find? (fun d => d.id = did) with
    | none =>
      rw [hfind] at h
      exact ((Prod.mk.injEq _ _ _ _).mp h).1.symm
    | some delivery =>
      rw [hfind] at h
      simp only at h
      by_cases hst : delivery.status ≠ DeliveryStatus.pending
      · rw [if_pos hst] at h
        exact ((Prod.mk.injEq _ _ _ _).mp h).1.symm
      rw [if_neg hst] at h
      by_cases hc :
          db.drones.filter (fun dr => delivery.weightKg ≤ dr.maxWeightKg) = []
      · rw [if_pos hc] at h
        exact ((Prod.mk.injEq _ _ _ _).mp h).1.symm
      rw [if_neg hc] at h
      cases hsel : selectBest (((db.drones.filter
          (fun dr => delivery.weightKg ≤ dr.maxWeightKg)).map
            (evalDrone (distFn delivery.pickup delivery.dropoff))).filter
          (fun c => c.withinRange && c.hasBattery)) with
      | none =>
        rw [hsel] at h
        exact ((Prod.mk.injEq _ _ _ _).mp h).1.symm
      | some chosen =>
        rw [hsel] at h
        simp at h

/-- Witness for C7: the missing-`deliveryId` error leaves the fixture store
untouched. -/
theorem schedule_error_preserves_db_witness : wDB = wDB :=
  schedule_error_preserves_db wDist "f1" wDB wDB none .deliveryIdRequired rfl

/-! ## Claim C10 -/

/-- C10: a `POST /drones` request with `batteryPercent` absent or `0` stores
the drone with `batteryPercent = 100` (`d.batteryPercent || 100`), so no
drone can be registered with an empty battery through `createDrone`. -/
theorem createDrone_defaults_battery_100 (db : DB) (req : DroneReq)
    (hid : req.id ≠ "") (hmodel : req.model ≠ "")
    (hb : req.batteryPercent = none ∨ req.batteryPercent = some 0) :
    (createDrone db req).1.drones = db.drones ++
      [{ id := req.id, model := req.model, maxWeightKg := req.maxWeightKg,
         maxRangeKm := req.maxRangeKm, batteryPercent := 100 }] ∧
    (createDrone db req).2 = .ok () := by
  rw [createDrone, if_neg (by simp [hid, hmodel])]
  refine ⟨?_, rfl⟩
  rcases hb with hb | hb <;> simp [jsOrQ, hb]

/-- A `POST /drones` request carrying an explicit zero battery. -/
def wDroneReqZero : DroneReq :=
  { id := "d2", model := "M2", maxWeightKg := 5, maxRangeKm := 50,
    batteryPercent := some 0 }

/-- The drone stored for `wDroneReqZero`. -/
def wDroneStored : Drone :=
  { id := "d2", model := "M2", maxWeightKg := 5, maxRangeKm := 50,
    batteryPercent := 100 }

/-- Witness for C10: a request with battery `0` is stored at `100`. -/
theorem createDrone_defaults_battery_100_witness :
    (createDrone wDB wDroneReqZero).1.drones = wDB.drones ++ [wDroneStored] ∧
    (createDrone wDB wDroneReqZero).2 = .ok () :=
  createDrone_defaults_battery_100 wDB wDroneReqZero
    (by simp [wDroneReqZero]) (by simp [wDroneReqZero]) (.inr rfl)

/-! ## Claim C9 (code bug): `POST /deliveries` only rejects falsy
`weightKg` (`!d.weightKg`), so `0` is rejected but a negative weight is
accepted and stored — contradicting the repository's own test
`testarValidacaoEntrega`, which posts `weightKg: -5` and asserts a 400. -/

/-- The repository test's invalid request: a negative weight. -/
def negWeightReq : DeliveryReq :=
  { id := "test-invalid", weightKg := -5, pickup := { lat := 0, lon := 0 },
    dropoff := { lat := 1, lon := 1 }, priority := none }

/-- The delivery the backend stores for `negWeightReq`. -/
def negWeightStored : Delivery :=
  { id := "test-invalid", weightKg := -5, pickup := { lat := 0, lon := 0 },
    dropoff := { lat := 1, lon := 1 }, status := .pending,
    priority := "normal" }

/-- C9 failing input: the repository test's invalid delivery
(`weightKg = -5`) is accepted by `createDelivery` and pushed into the store
with its negative weight, although `-5 > 0` is false. -/
theorem createDelivery_accepts_negative_weight :
    (createDelivery wDB negWeightReq).2 = .ok () ∧
    (createDelivery wDB negWeightReq).1.deliveries =
      wDB.deliveries ++ [negWeightStored] ∧
    ¬(0 : ℚ) < negWeightStored.weightKg := by
  rw [createDelivery, negWeightReq]
  rw [if_neg (not_or.mpr ⟨by simp, by norm_num⟩)]
  refine ⟨rfl, by simp [jsOrStr, negWeightStored], by norm_num [negWeightStored]⟩

/-! ## Claim C3 (code bug): `POST /flights` with no `deliveryId` returns
the `deliveryId required` error immediately — there is no automatic
priority/FIFO pick in the backend, although the repository's own test
`testarFilaPrioridade` posts `{}` and expects the high-priority delivery to
be scheduled. -/

def prioDrone : Drone :=
  { id := "test-drone-prio", model := "Prio Test", maxWeightKg := 10,
    maxRangeKm := 100, batteryPercent := 100 }

def prioDelivery (id pr : String) : Delivery :=
  { id := id, weightKg := 2, pickup := { lat := 0, lon := 0 },
    dropoff := { lat := 1, lon := 1 }, status := .pending, priority := pr }

/-- The store of the priority-queue test: `[low, high, normal]` pending
deliveries created in that order, and one drone able to serve all three. -/
def prioDB : DB :=
  { drones := [prioDrone],
    deliveries := [prioDelivery "test-del-low" "low",
      prioDelivery "test-del-high" "high",
      prioDelivery "test-del-normal" "normal"],
    flights := [], flightHistory := [], obstacles := [], nextOrderNumber := 1 }

/-- C3 failing input: the automatic `scheduleFlight()` (no explicit id)
errors out with `deliveryId required` instead of selecting the
high-priority delivery. -/
theorem schedule_auto_pick_rejected :
    scheduleFlight wDist "f-prio" prioDB none =
      (prioDB, .error .deliveryIdRequired) := rfl

/-! ## Claim C2 (code bug): `POST /flights` never consults `db.obstacles`
— there is no `segmentIntersectsCircle` check anywhere in the backend — so
a delivery crossing an obstacle schedules fine whenever a feasible drone
exists, although the repository's own test `testarBloqueioRota` posts a
blocking obstacle and asserts a 400 mentioning `obstacle`. -/

def blockedDelivery : Delivery :=
  { id := "test-blocked-del", weightKg := 3,
    pickup := { lat := -235/10, lon := -466/10 },
    dropoff := { lat := -2355/100, lon := -4665/100 },
    status := .pending, priority := "normal" }

def blockerObstacle : Obstacle :=
  { id := "test-blocker", lat := -23525/1000, lon := -46625/1000, radiusKm := 5 }

def blockedDrone : Drone :=
  { id := "test-drone-blocked", model := "Blocker Test", maxWeightKg := 10,
    maxRangeKm := 100, batteryPercent := 100 }

/-- The store of the route-blocking test, parametrized by the obstacle
list. -/
def blockedDB (obs : List Obstacle) : DB :=
  { drones := [blockedDrone], deliveries := [blockedDelivery], flights := [],
    flightHistory := [], obstacles := obs, nextOrderNumber := 1 }

/-- Stands for `haversineKm` on the blocked route (about 7.7 km; the exact
value is irrelevant, any distance within range exhibits the bug). -/
def blockedDist : Coord → Coord → ℚ := fun _ _ => 77/10

/-- The flight `POST /flights` actually creates on the blocked route. -/
def blockedFlight : Flight :=
  { id := "f-blocked", deliveryId := "test-blocked-del",
    droneId := "test-drone-blocked", distanceKm := 77/10,
    requiredBattery := 10, status := .scheduled, orderNumber := 1,
    displayId := "Ordem de servico 1" }

/-- C2 failing input: with ANY obstacle list — in particular the one
holding the repository test's blocking obstacle — scheduling the crossing
delivery succeeds instead of failing with a `RouteBlocked` error. -/
theorem schedule_ignores_obstacles_on_blocked_route :
    ∀ obs : List Obstacle,
      (scheduleFlight blockedDist "f-blocked" (blockedDB obs)
          (some "test-blocked-del")).2 = .ok blockedFlight := by
  intro obs
  simp [scheduleFlight, blockedDB, blockedDrone, blockedDelivery, blockedDist,
    blockedFlight, evalDrone, requiredBatteryFor, selectBest, roundTo3,
    List.find?, List.filter, List.findIdx, List.findIdx.go, List.modify,
    List.modifyTailIdx]
  norm_num [bestScan]
  constructor
  · have h : (⌈(231 : ℚ) / 25⌉ : ℤ) = 10 := by
      rw [Int.ceil_eq_iff]
      norm_num
    rw [h]
    norm_num
  · rfl

/-! ## Claim C5 (corrected): `PUT /flights/:id` validates the status VALUE
but not the TRANSITION — it overwrites `flight.status` unconditionally, so
`completed` and `cancelled` are not terminal. -/

/-- A flight that has already completed. -/
def termFlight : Flight :=
  { id := "f5", deliveryId := "del1", droneId := "d1", distanceKm := 10,
    requiredBattery := 12, status := .completed, orderNumber := 1,
    displayId := "Ordem de servico 1" }

def termDB : DB :=
  { drones := [{ wDrone with batteryPercent := 88 }],
    deliveries := [{ wDelivery with status := .delivered }],
    flights := [termFlight], flightHistory := [], obstacles := [],
    nextOrderNumber := 2 }

/-- C5 counterexample: updating a `completed` flight to `cancelled`
succeeds and changes its status (even re-crediting the drone), so
`completed` is not terminal. -/
theorem completed_flight_cancelled_counterexample :
    termFlight.status = .completed ∧
    (updateFlightStatus termDB "f5" "cancelled").2 =
      .ok { termFlight with status := .cancelled } := by
  refine ⟨rfl, ?_⟩
  simp [updateFlightStatus, termDB, termFlight, FlightStatus.ofString,
    List.find?]

/-- C5 amended: `updateFlight` with any valid status value overwrites the
flight's status regardless of its current value; in particular `completed`
and `cancelled` are not terminal states.  (No other operation rewrites a
stored flight's status in place.) -/
theorem updateFlight_overwrites_status (db : DB) (id s : String)
    (st : FlightStatus) (f : Flight)
    (hst : FlightStatus.ofString s = some st)
    (hf : db.flights.find? (fun g => g.id = id) = some f) :
    (updateFlightStatus db id s).2 = .ok { f with status := st } := by
  rw [updateFlightStatus, hf, hst]

/-- Witness for the amended C5: a `completed` flight set to `in_progress`. -/
theorem updateFlight_overwrites_status_witness :
    (updateFlightStatus termDB "f5" "in_progress").2 =
      .ok { termFlight with status := .in_progress } :=
  updateFlight_overwrites_status termDB "f5" "in_progress" .in_progress
    termFlight rfl (by simp [termDB, termFlight, List.find?])

/-! ## Claim C8 (corrected): `POST /drones` and `PUT /drones/:id` store the
request's `batteryPercent` without clamping, so out-of-range values enter
the registry; the flight operations, by contrast, do keep
`batteryPercent ∈ [0,100]`. -/

/-- A registration request with an out-of-range battery. -/
def overReq : DroneReq :=
  { id := "dX", model := "MX", maxWeightKg := 1, maxRangeKm := 1,
    batteryPercent := some 150 }

/-- The out-of-range drone record `createDrone` stores for `overReq`. -/
def overStored : Drone :=
  { id := "dX", model := "MX", maxWeightKg := 1, maxRangeKm := 1,
    batteryPercent := 150 }

/-- C8 counterexample: `createDrone` stores `batteryPercent = 150`,
violating `batteryPercent ≤ 100`. -/
theorem createDrone_stores_battery_above_100 :
    ∃ dr, (createDrone wDB overReq).1.drones = wDB.drones ++ [dr] ∧
      dr.batteryPercent = 150 ∧ ¬dr.batteryPercent ≤ 100 := by
  refine ⟨overStored, ?_, rfl, by norm_num [overStored]⟩
  rw [createDrone, overReq]
  rw [if_neg (not_or.mpr ⟨by simp, by simp⟩)]
  simp only [jsOrQ, overStored]
  norm_num

/-- The drone-battery interval invariant of the data model. -/
def BatteryInv (db : DB) : Prop :=
  ∀ dr ∈ db.drones, 0 ≤ dr.batteryPercent ∧ dr.batteryPercent ≤ 100

/-- Stored flights carry the (nonnegative) battery cost debited at
scheduling time. -/
def ReqInv (db : DB) : Prop :=
  ∀ f ∈ db.flights, 0 ≤ f.requiredBattery

theorem requiredBatteryFor_nonneg (dist : ℚ) (dr : Drone) (h0 : 0 ≤ dist)
    (hr : dist ≤ dr.maxRangeKm) : 0 ≤ requiredBatteryFor dist dr := by
  rw [requiredBatteryFor]
  have hq : 0 ≤ dist / dr.maxRangeKm * 100 * (12 / 10 : ℚ) := by
    rcases eq_or_lt_of_le (le_trans h0 hr) with hz | hpos
    · rw [← hz, div_zero, zero_mul, zero_mul]
    · positivity
  have hceil : (0 : ℤ) ≤ ⌈dist / dr.maxRangeKm * 100 * (12 / 10 : ℚ)⌉ :=
    Int.ceil_nonneg hq
  have : (0 : ℤ) ≤ min 100 ⌈dist / dr.maxRangeKm * 100 * (12 / 10 : ℚ)⌉ :=
    le_min (by norm_num) hceil
  exact_mod_cast this

/-- `creditDrone` keeps every battery inside `[0,100]`. -/
theorem creditDrone_batteryInv (drones : List Drone) (did : String) (r : ℚ)
    (hr : 0 ≤ r)
    (hB : ∀ dr ∈ drones, 0 ≤ dr.batteryPercent ∧ dr.batteryPercent ≤ 100) :
    ∀ dr ∈ creditDrone drones did r,
      0 ≤ dr.batteryPercent ∧ dr.batteryPercent ≤ 100 := by
  intro dr hdr
  rw [creditDrone] at hdr
  rcases mem_modify _ _ _ dr hdr with h | ⟨b, hb, hab⟩
  · exact hB dr h
  · subst hab
    obtain ⟨hb0, hb1⟩ := hB b hb
    constructor
    · exact le_min (by norm_num) (by linarith)
    · exact min_le_left _ _

/-- C8 amended: the flight-lifecycle operations (`scheduleFlight`,
`updateFlight`, `removeFlight`, `cancelDelivery`, `removeDrone`) preserve
`0 ≤ batteryPercent ≤ 100` for every drone (debits floor at 0, credits cap
at 100); the violation comes only from `createDrone`/`updateDrone`, which
store arbitrary request values unclamped. -/
theorem flight_ops_preserve_battery_interval (distFn : Coord → Coord → ℚ)
    (fid : String) (db : DB) (arg : Option String) (id s id2 id3 id4 : String)
    (hd : ∀ a b, 0 ≤ distFn a b) (hB : BatteryInv db) (hR : ReqInv db) :
    BatteryInv (scheduleFlight distFn fid db arg).1 ∧
    BatteryInv (updateFlightStatus db id s).1 ∧
    BatteryInv (removeFlight db id2).1 ∧
    BatteryInv (cancelDelivery db id3).1 ∧
    BatteryInv (removeDrone db id4).1 := by
  refine ⟨?_, ?_, ?_, ?_, ?_⟩
  · -- scheduleFlight: only the ok branch debits one drone
    cases arg with
    | none => rw [scheduleFlight]; exact hB
    | some did =>
      rw [scheduleFlight]
      cases hfind : db.deliveries.find? (fun d => d.id = did) with
      | none => exact hB
      | some delivery =>
        simp only
        by_cases hst : delivery.status ≠ DeliveryStatus.pending
        · rw [if_pos hst]; exact hB
        rw [if_neg hst]
        by_cases hc :
            db.drones.filter (fun dr => delivery.weightKg ≤ dr.maxWeightKg) = []
        · rw [if_pos hc]; exact hB
        rw [if_neg hc]
        cases hsel : selectBest (((db.drones.filter
            (fun dr => delivery.weightKg ≤ dr.maxWeightKg)).map
              (evalDrone (distFn delivery.pickup delivery.dropoff))).filter
            (fun c => c.withinRange && c.hasBattery)) with
        | none => exact hB
        | some chosen =>
          simp only
          intro dr hdr
          rcases mem_modify _ _ _ dr hdr with h | ⟨b, hb, hab⟩
          · exact hB dr h
          · subst hab
            obtain ⟨hb0, hb1⟩ := hB b hb
            have hreq : 0 ≤ chosen.requiredBattery := by
              obtain ⟨-, -, hreq, hrange, -⟩ :=
                mem_feasibleList _ _ _ chosen (selectBest_mem _ chosen hsel)
              rw [hreq]
              exact requiredBatteryFor_nonneg _ _ (hd _ _) hrange
            constructor
            · exact le_max_left _ _
            · exact max_le (by norm_num) (by linarith)
  · -- updateFlightStatus: the cancelled branch credits one drone
    rw [updateFlightStatus]
    cases hfind : db.flights.find? (fun f => f.id = id) with
    | none => exact hB
    | some flight =>
      simp only
      cases hparse : FlightStatus.ofString s with
      | none => exact hB
      | some st =>
        simp only
        have hreq : 0 ≤ flight.requiredBattery :=
          hR flight (List.mem_of_find?_eq_some hfind)
        by_cases hcase : st = FlightStatus.cancelled ∧
            flight.status ≠ FlightStatus.cancelled
        · rw [if_pos hcase]
          by_cases hcomp : st = FlightStatus.completed
          · rw [if_pos hcomp]
            exact creditDrone_batteryInv _ _ _ hreq hB
          · rw [if_neg hcomp]
            exact creditDrone_batteryInv _ _ _ hreq hB
        · rw [if_neg hcase]
          by_cases hcomp : st = FlightStatus.completed
          · rw [if_pos hcomp]; exact hB
          · rw [if_neg hcomp]; exact hB
  · -- removeFlight credits one drone
    rw [removeFlight]
    cases hfind : db.flights.find? (fun f => f.id = id2) with
    | none => exact hB
    | some flight =>
      exact creditDrone_batteryInv _ _ _
        (hR flight (List.mem_of_find?_eq_some hfind)) hB
  · -- cancelDelivery archives at most one flight, crediting its drone
    rw [cancelDelivery]
    cases hfind : db.deliveries.find? (fun d => d.id = id3) with
    | none => exact hB
    | some delivery =>
      simp only
      by_cases hcs : delivery.status = DeliveryStatus.cancelled
      · rw [if_pos hcs]; exact hB
      rw [if_neg hcs]
      cases hflight : db.flights.find? (fun f => f.deliveryId = id3) with
      | none => exact hB
      | some flight =>
        exact creditDrone_batteryInv _ _ _
          (hR flight (List.mem_of_find?_eq_some hflight)) hB
  · -- removeDrone only erases from the drone list
    rw [removeDrone]
    cases hfind : db.drones.find? (fun d => d.id = id4) with
    | none => exact hB
    | some removed =>
      intro dr hdr
      exact hB dr (List.eraseIdx_subset _ _ hdr)

/-- Witness for the amended C8 at the fixture store. -/
theorem flight_ops_preserve_battery_interval_witness :
    BatteryInv (scheduleFlight wDist "f1" wDB (some "del1")).1 ∧
    BatteryInv (updateFlightStatus wDB "f1" "cancelled").1 ∧
    BatteryInv (removeFlight wDB "f1").1 ∧
    BatteryInv (cancelDelivery wDB "del1").1 ∧
    BatteryInv (removeDrone wDB "d1").1 :=
  flight_ops_preserve_battery_interval wDist "f1" wDB (some "del1") "f1"
    "cancelled" "f1" "del1" "d1" (fun _ _ => by norm_num [wDist])
    (by intro dr hdr; simp [wDB, wDrone] at hdr; subst hdr; norm_num [wDrone])
    (by intro f hf; simp [wDB] at hf)

/-! ## Claim C4 -/

/-- C4: on a successful `scheduleFlight`, the chosen drone's battery drops
by exactly `f.requiredBattery` (the floor at 0 never engages, since
feasibility guarantees enough charge), and each of `removeFlight`,
`cancelDelivery` and an `updateFlight` to `cancelled` restores the battery
to exactly its pre-schedule value (the cap at 100 never engages for
in-range data): the debit is exactly reversed by the credit.  Hypotheses
are data-model invariants: unique drone ids, batteries within 100, fresh
flight id, and no other active flight for the delivery. -/
theorem battery_debit_credit_reversible
    (distFn : Coord → Coord → ℚ) (fid did : String) (db db1 : DB) (f : Flight)
    (hNodup : (db.drones.map Drone.id).Nodup)
    (hB : ∀ dr ∈ db.drones, dr.batteryPercent ≤ 100)
    (hFresh : ∀ g ∈ db.flights, g.id ≠ fid)
    (hNoAct : ∀ g ∈ db.flights, g.deliveryId ≠ did)
    (hs : scheduleFlight distFn fid db (some did) = (db1, .ok f)) :
    ∃ dr0, db.drones.find? (fun d => d.id = f.droneId) = some dr0 ∧
      f.requiredBattery ≤ dr0.batteryPercent ∧
      db1.drones.find? (fun d => d.id = f.droneId) =
        some { dr0 with batteryPercent := dr0.batteryPercent - f.requiredBattery } ∧
      (removeFlight db1 f.id).1.drones.find? (fun d => d.id = f.droneId) =
        some dr0 ∧
      (cancelDelivery db1 f.deliveryId).1.drones.find?
          (fun d => d.id = f.droneId) = some dr0 ∧
      (updateFlightStatus db1 f.id "cancelled").1.drones.find?
          (fun d => d.id = f.droneId) = some dr0 := by
  obtain ⟨delivery, chosen, hfind, hpend, hsel, hf, hdb1⟩ :=
    scheduleFlight_ok_shape distFn fid db db1 did f hs
  obtain ⟨hdr_mem, hw, hreqf, hrange, hbattf⟩ :=
    mem_feasibleList _ _ _ chosen (selectBest_mem _ chosen hsel)
  have hb : chosen.requiredBattery ≤ chosen.dr.batteryPercent := hreqf ▸ hbattf
  have h100 : chosen.dr.batteryPercent ≤ 100 := hB _ hdr_mem
  have hdid : delivery.id = did := by simpa using List.find?_some hfind
  have hfid : f.id = fid := by rw [hf]
  have hfdel : f.deliveryId = delivery.id := by rw [hf]
  have hfdr : f.droneId = chosen.dr.id := by rw [hf]
  have hfreq : f.requiredBattery = chosen.requiredBattery := by rw [hf]
  have hfst : f.status = FlightStatus.scheduled := by rw [hf]
  have hfind0 : db.drones.find? (fun d => d.id = chosen.dr.id) = some chosen.dr :=
    find?_eq_self_of_nodup Drone.id db.drones hNodup chosen.dr hdr_mem
  have hdrones1 : db1.drones =
      db.drones.modify
        (fun d => { d with batteryPercent := max 0 (d.batteryPercent - chosen.requiredBattery) })
        (db.drones.findIdx (fun d => d.id = chosen.dr.id)) := by
    rw [hdb1]
  have hfind1 : db1.drones.find? (fun d => d.id = chosen.dr.id) =
      some { chosen.dr with batteryPercent := chosen.dr.batteryPercent - chosen.requiredBattery } := by
    rw [hdrones1,
      find?_modify_findIdx db.drones (fun d => decide (d.id = chosen.dr.id))
        (fun d => { d with batteryPercent := max 0 (d.batteryPercent - chosen.requiredBattery) })
        (fun a => rfl),
      hfind0, Option.map_some']
    rw [max_eq_right (sub_nonneg.mpr hb)]
  have hflights1 : db1.flights = db.flights ++ [f] := by rw [hdb1]
  have hfindfl : db1.flights.find? (fun g => g.id = fid) = some f := by
    rw [hflights1, List.find?_append, List.find?_eq_none.mpr
      (fun x hx => by simpa using hFresh x hx), Option.none_or]
    simp [List.find?_cons, hfid]
  have hcredit :
      creditDrone db1.drones chosen.dr.id chosen.requiredBattery = db.drones := by
    rw [hdrones1, creditDrone,
      modify_modify_findIdx db.drones (fun d => decide (d.id = chosen.dr.id))
        (fun d => { d with batteryPercent := max 0 (d.batteryPercent - chosen.requiredBattery) })
        (fun d => { d with batteryPercent := min 100 (d.batteryPercent + chosen.requiredBattery) })
        (fun a => rfl)]
    refine modify_findIdx_eq_self _ _ _ (fun b hbfind => ?_)
    rw [hfind0] at hbfind
    injection hbfind with hbeq
    subst hbeq
    dsimp only
    rw [max_eq_right (sub_nonneg.mpr hb), sub_add_cancel, min_eq_right h100]
  have hrf : (removeFlight db1 f.id).1.drones = db.drones := by
    rw [hfid, removeFlight, hfindfl]
    dsimp only
    rw [hfdr, hfreq, hcredit]
  have hq : db.deliveries.find? (fun d => d.id = delivery.id) = some delivery := by
    have hpe : (fun d : Delivery => decide (d.id = delivery.id)) =
        (fun d : Delivery => decide (d.id = did)) := by
      funext d
      rw [hdid]
    rw [hpe]
    exact hfind
  have hcd : (cancelDelivery db1 f.deliveryId).1.drones = db.drones := by
    rw [hfdel, cancelDelivery]
    have hdl1 : db1.deliveries.find? (fun d => d.id = delivery.id) =
        some { delivery with status := DeliveryStatus.in_transit } := by
      have hdl : db1.deliveries =
          db.deliveries.modify (fun d => { d with status := DeliveryStatus.in_transit })
            (db.deliveries.findIdx (fun d => d.id = delivery.id)) := by
        rw [hdb1]
      rw [hdl,
        find?_modify_findIdx db.deliveries
          (fun d => decide (d.id = delivery.id))
          (fun d => { d with status := DeliveryStatus.in_transit })
          (fun a => rfl),
        hq, Option.map_some']
    rw [hdl1]
    dsimp only
    rw [if_neg (by simp)]
    have hfl : db1.flights.find? (fun g => g.deliveryId = delivery.id) = some f := by
      rw [hflights1, List.find?_append, List.find?_eq_none.mpr
        (fun x hx => by simpa [hdid] using hNoAct x hx), Option.none_or]
      simp [List.find?_cons, hfdel]
    rw [hfl]
    dsimp only
    rw [hfdr, hfreq, hcredit]
  have hup : (updateFlightStatus db1 f.id "cancelled").1.drones = db.drones := by
    rw [hfid, updateFlightStatus, hfindfl]
    rw [show FlightStatus.ofString "cancelled" = some FlightStatus.cancelled from rfl]
    dsimp only
    have hne : f.status ≠ FlightStatus.cancelled := by
      rw [hfst]
      simp
    rw [if_pos (And.intro rfl hne)]
    rw [if_neg (by simp)]
    dsimp only
    rw [hfdr, hfreq, hcredit]
  simp only [hfdr, hfreq]
  refine ⟨chosen.dr, hfind0, hb, hfind1, ?_, ?_, ?_⟩
  · rw [hrf]
    exact hfind0
  · rw [hcd]
    exact hfind0
  · rw [hup]
    exact hfind0

/-- Witness for C4 at the fixture store (battery 100, debit 12, credits
back to 100). -/
theorem battery_debit_credit_reversible_witness :
    ∃ dr0, wDB.drones.find? (fun d => d.id = wFlight.droneId) = some dr0 ∧
      wFlight.requiredBattery ≤ dr0.batteryPercent ∧
      wDB1.drones.find? (fun d => d.id = wFlight.droneId) =
        some { dr0 with batteryPercent := dr0.batteryPercent - wFlight.requiredBattery } ∧
      (removeFlight wDB1 wFlight.id).1.drones.find?
          (fun d => d.id = wFlight.droneId) = some dr0 ∧
      (cancelDelivery wDB1 wFlight.deliveryId).1.drones.find?
          (fun d => d.id = wFlight.droneId) = some dr0 ∧
      (updateFlightStatus wDB1 wFlight.id "cancelled").1.drones.find?
          (fun d => d.id = wFlight.droneId) = some dr0 :=
  battery_debit_credit_reversible wDist "f1" "del1" wDB wDB1 wFlight
    (by simp [wDB, wDrone])
    (fun dr hdr => by
      simp only [wDB, List.mem_singleton] at hdr
      subst hdr
      norm_num [wDrone])
    (fun g hg => by simp [wDB] at hg)
    (fun g hg => by simp [wDB] at hg)
    wSchedule_eval

/-! ## Claim C6 (corrected): delivery status transitions -/

/-- C6 counterexample: cancelling the flight of an `in_transit` delivery
moves the delivery back to `pending` — a transition
(`in_transit → pending`) outside the claim's allowed set
`{pending → in_transit, in_transit → delivered, pending|in_transit →
cancelled}`. -/
theorem in_transit_to_pending_counterexample :
    wDB1.deliveries.map Delivery.status = [DeliveryStatus.in_transit] ∧
    (updateFlightStatus wDB1 "f1" "cancelled").1.deliveries.map Delivery.status =
      [DeliveryStatus.pending] := by
  constructor
  · simp [wDB1, wDelivery]
  · simp [updateFlightStatus, wDB1, wFlight, wDelivery, wDrone,
      FlightStatus.ofString, List.find?, creditDrone, revertDelivery,
      deliverDelivery, List.findIdx, List.findIdx.go, List.modify,
      List.modifyTailIdx]

/-- The delivery status steps actually reachable in one public operation:
scheduling (`pending → in_transit`), flight cancellation/removal and drone
removal (`in_transit → pending`), `updateFlight` to `completed`
(anything `→ delivered`, unguarded), and `cancelDelivery`
(non-cancelled `→ cancelled`). -/
def allowedStep (s t : DeliveryStatus) : Prop :=
  (s = .pending ∧ t = .in_transit) ∨
  (s = .in_transit ∧ t = .pending) ∨
  t = .delivered ∨
  (s ≠ .cancelled ∧ t = .cancelled)

/-- Every delivery of the post-state either is a freshly created `pending`
one or derives from a same-id delivery of the pre-state by keeping its
status or taking one `allowedStep`. -/
def DeliveryTransOK (old new : DB) : Prop :=
  ∀ d1 ∈ new.deliveries,
    (∃ d0 ∈ old.deliveries, d0.id = d1.id ∧
      (d0.status = d1.status ∨ allowedStep d0.status d1.status)) ∨
    d1.status = .pending

/-- One public mutating operation of the backend. -/
inductive Op where
  | createDroneOp (req : DroneReq)
  | updateDroneOp (id : String) (body : DroneUpdate)
  | removeDroneOp (id : String)
  | createDeliveryOp (req : DeliveryReq)
  | updateDeliveryOp (id : String) (body : DeliveryUpdate)
  | removeDeliveryOp (id : String)
  | cancelDeliveryOp (id : String)
  | scheduleFlightOp (distFn : Coord → Coord → ℚ) (freshId : String)
      (deliveryId : Option String)
  | updateFlightStatusOp (id newStatus : String)
  | removeFlightOp (id : String)

/-- The store after running one public operation. -/
def Op.apply : Op → DB → DB
  | .createDroneOp req, db => (createDrone db req).1
  | .updateDroneOp id body, db => (updateDrone db id body).1
  | .removeDroneOp id, db => (removeDrone db id).1
  | .createDeliveryOp req, db => (createDelivery db req).1
  | .updateDeliveryOp id body, db => (updateDelivery db id body).1
  | .removeDeliveryOp id, db => (removeDelivery db id).1
  | .cancelDeliveryOp id, db => (cancelDelivery db id).1
  | .scheduleFlightOp distFn freshId deliveryId, db =>
      (scheduleFlight distFn freshId db deliveryId).1
  | .updateFlightStatusOp id newStatus, db =>
      (updateFlightStatus db id newStatus).1
  | .removeFlightOp id, db => (removeFlight db id).1

/-- Relation produced by (possibly several) `revertDelivery` calls:
each delivery keeps its status or goes `in_transit → pending`. -/
def RevertRel (old new : List Delivery) : Prop :=
  ∀ d1 ∈ new, ∃ d0 ∈ old, d0.id = d1.id ∧
    (d0.status = d1.status ∨
      (d0.status = .in_transit ∧ d1.status = .pending))

theorem revertRel_refl (l : List Delivery) : RevertRel l l :=
  fun d1 h => ⟨d1, h, rfl, .inl rfl⟩

theorem revertRel_trans {a b c : List Delivery} (h1 : RevertRel a b)
    (h2 : RevertRel b c) : RevertRel a c := by
  intro d2 hd2
  obtain ⟨d1, hd1, hid1, hst1⟩ := h2 d2 hd2
  obtain ⟨d0, hd0, hid0, hst0⟩ := h1 d1 hd1
  refine ⟨d0, hd0, hid0.trans hid1, ?_⟩
  rcases hst0 with h | ⟨ha, hb⟩
  · rcases hst1 with g | ⟨gc, gd⟩
    · exact .inl (h.trans g)
    · exact .inr ⟨h.trans gc, gd⟩
  · rcases hst1 with g | ⟨gc, gd⟩
    · exact .inr ⟨ha, g ▸ hb⟩
    · exact absurd (hb.symm.trans gc) (by simp)

theorem revertDelivery_rel (l : List Delivery) (s : String) :
    RevertRel l (revertDelivery l s) := by
  intro d1 hd1
  rw [revertDelivery] at hd1
  cases hfind : l.find? (fun d => d.id = s) with
  | none =>
    rw [hfind] at hd1
    exact ⟨d1, hd1, rfl, .inl rfl⟩
  | some d =>
    rw [hfind] at hd1
    dsimp only at hd1
    by_cases hst : d.status = DeliveryStatus.in_transit
    · rw [if_pos hst] at hd1
      rcases mem_modify_findIdx l _ _ d1 hd1 with h | ⟨b, hbfind, hab⟩
      · exact ⟨d1, h, rfl, .inl rfl⟩
      · rw [hfind] at hbfind
        injection hbfind with hbe
        subst hbe
        subst hab
        exact ⟨d, List.mem_of_find?_eq_some hfind, rfl, .inr ⟨hst, rfl⟩⟩
    · rw [if_neg hst] at hd1
      exact ⟨d1, hd1, rfl, .inl rfl⟩

theorem foldl_revert_rel (fs : List Flight) (ds : List Delivery) :
    RevertRel ds (fs.foldl (fun a f => revertDelivery a f.deliveryId) ds) := by
  induction fs generalizing ds with
  | nil => exact revertRel_refl ds
  | cons f ft ih =>
    exact revertRel_trans (revertDelivery_rel ds f.deliveryId)
      (by simpa using ih (revertDelivery ds f.deliveryId))

theorem transOK_of_deliveries_eq (old new : DB)
    (h : new.deliveries = old.deliveries) : DeliveryTransOK old new :=
  fun d1 hd1 => .inl ⟨d1, h ▸ hd1, rfl, .inl rfl⟩

theorem transOK_of_revertRel (old new : DB)
    (h : RevertRel old.deliveries new.deliveries) : DeliveryTransOK old new := by
  intro d1 hd1
  obtain ⟨d0, hd0, hid, hst⟩ := h d1 hd1
  refine .inl ⟨d0, hd0, hid, ?_⟩
  rcases hst with h | ⟨h1, h2⟩
  · exact .inl h
  · exact .inr (.inr (.inl ⟨h1, h2⟩))

theorem transOK_of_deliver (old new : DB) (s : String)
    (h : new.deliveries = deliverDelivery old.deliveries s) :
    DeliveryTransOK old new := by
  intro d1 hd1
  rw [h, deliverDelivery] at hd1
  rcases mem_modify _ _ _ d1 hd1 with hm | ⟨b, hb, hab⟩
  · exact .inl ⟨d1, hm, rfl, .inl rfl⟩
  · subst hab
    exact .inl ⟨b, hb, rfl, .inr (.inr (.inr (.inl rfl)))⟩

/-- C6 amended: the delivery transitions reachable through the public
operations are exactly characterized by `allowedStep`: beyond the claim's
`pending → in_transit`, `in_transit → delivered` and
`pending|in_transit → cancelled`, flight cancellation/removal and drone
removal revert `in_transit → pending`, `updateFlight` to `completed` sets
`delivered` from any status, and `cancelDelivery` cancels from any
non-cancelled status. -/
theorem delivery_transitions_characterized (op : Op) (db : DB) :
    DeliveryTransOK db (op.apply db) := by
  cases op with
  | createDroneOp req =>
    rw [Op.apply, createDrone]
    by_cases h : req.id = "" ∨ req.model = ""
    · rw [if_pos h]
      exact transOK_of_deliveries_eq db _ rfl
    · rw [if_neg h]
      exact transOK_of_deliveries_eq db _ rfl
  | updateDroneOp id body =>
    rw [Op.apply, updateDrone]
    cases hfind : db.drones.find? (fun d => d.id = id) with
    | none => exact transOK_of_deliveries_eq db _ rfl
    | some old => exact transOK_of_deliveries_eq db _ rfl
  | removeDroneOp id =>
    rw [Op.apply, removeDrone]
    cases hfind : db.drones.find? (fun d => d.id = id) with
    | none => exact transOK_of_deliveries_eq db _ rfl
    | some removed =>
      exact transOK_of_revertRel db _ (foldl_revert_rel _ _)
  | createDeliveryOp req =>
    rw [Op.apply, createDelivery]
    by_cases h : req.id = "" ∨ req.weightKg = 0
    · rw [if_pos h]
      exact transOK_of_deliveries_eq db _ rfl
    · rw [if_neg h]
      intro d1 hd1
      dsimp only at hd1
      rcases List.mem_append.mp hd1 with hm | hm
      · exact .inl ⟨d1, hm, rfl, .inl rfl⟩
      · right
        simp only [List.mem_singleton] at hm
        rw [hm]
  | updateDeliveryOp id body =>
    rw [Op.apply, updateDelivery]
    cases hfind : db.deliveries.find? (fun d => d.id = id) with
    | none => exact transOK_of_deliveries_eq db _ rfl
    | some old =>
      dsimp only
      by_cases hst : old.status ≠ DeliveryStatus.pending
      · rw [if_pos hst]
        exact transOK_of_deliveries_eq db _ rfl
      · rw [if_neg hst]
        intro d1 hd1
        dsimp only at hd1
        rcases List.mem_or_eq_of_mem_set hd1 with hm | hm
        · exact .inl ⟨d1, hm, rfl, .inl rfl⟩
        · subst hm
          exact .inl ⟨old, List.mem_of_find?_eq_some hfind, rfl, .inl rfl⟩
  | removeDeliveryOp id =>
    rw [Op.apply, removeDelivery]
    cases hfind : db.deliveries.find? (fun d => d.id = id) with
    | none => exact transOK_of_deliveries_eq db _ rfl
    | some delv =>
      dsimp only
      by_cases hst : delv.status ≠ DeliveryStatus.pending
      · rw [if_pos hst]
        exact transOK_of_deliveries_eq db _ rfl
      rw [if_neg hst]
      by_cases hfl : (db.flights.find? (fun f => f.deliveryId = id)).isSome
      · rw [if_pos hfl]
        exact transOK_of_deliveries_eq db _ rfl
      · rw [if_neg hfl]
        intro d1 hd1
        exact .inl ⟨d1, List.eraseIdx_subset _ _ hd1, rfl, .inl rfl⟩
  | cancelDeliveryOp id =>
    rw [Op.apply, cancelDelivery]
    cases hfind : db.deliveries.find? (fun d => d.id = id) with
    | none => exact transOK_of_deliveries_eq db _ rfl
    | some delivery =>
      dsimp only
      by_cases hst : delivery.status = DeliveryStatus.cancelled
      · rw [if_pos hst]
        exact transOK_of_deliveries_eq db _ rfl
      rw [if_neg hst]
      cases hfl : db.flights.find? (fun f => f.deliveryId = id) with
      | none =>
        dsimp only
        intro d1 hd1
        dsimp only at hd1
        rcases mem_modify_findIdx db.deliveries _ _ d1 hd1 with hm | ⟨b, hbfind, hab⟩
        · exact .inl ⟨d1, hm, rfl, .inl rfl⟩
        · rw [hfind] at hbfind
          injection hbfind with hbe
          subst hbe
          subst hab
          exact .inl ⟨delivery, List.mem_of_find?_eq_some hfind, rfl,
            .inr (.inr (.inr (.inr ⟨hst, rfl⟩)))⟩
      | some flight =>
        dsimp only
        intro d1 hd1
        dsimp only at hd1
        rcases mem_modify_findIdx db.deliveries _ _ d1 hd1 with hm | ⟨b, hbfind, hab⟩
        · exact .inl ⟨d1, hm, rfl, .inl rfl⟩
        · rw [hfind] at hbfind
          injection hbfind with hbe
          subst hbe
          subst hab
          exact .inl ⟨delivery, List.mem_of_find?_eq_some hfind, rfl,
            .inr (.inr (.inr (.inr ⟨hst, rfl⟩)))⟩
  | scheduleFlightOp distFn freshId deliveryId =>
    rw [Op.apply]
    cases deliveryId with
    | none =>
      rw [scheduleFlight]
      exact transOK_of_deliveries_eq db _ rfl
    | some did =>
      rw [scheduleFlight]
      cases hfind : db.deliveries.find? (fun d => d.id = did) with
      | none => exact transOK_of_deliveries_eq db _ rfl
      | some delivery =>
        dsimp only
        by_cases hst : delivery.status ≠ DeliveryStatus.pending
        · rw [if_pos hst]
          exact transOK_of_deliveries_eq db _ rfl
        rw [if_neg hst]
        by_cases hc :
            db.drones.filter (fun dr => delivery.weightKg ≤ dr.maxWeightKg) = []
        · rw [if_pos hc]
          exact transOK_of_deliveries_eq db _ rfl
        rw [if_neg hc]
        cases hsel : selectBest (((db.drones.filter
            (fun dr => delivery.weightKg ≤ dr.maxWeightKg)).map
              (evalDrone (distFn delivery.pickup delivery.dropoff))).filter
            (fun c => c.withinRange && c.hasBattery)) with
        | none => exact transOK_of_deliveries_eq db _ rfl
        | some chosen =>
          dsimp only
          intro d1 hd1
          dsimp only at hd1
          have hdid : delivery.id = did := by
            simpa using List.find?_some hfind
          rcases mem_modify_findIdx db.deliveries _ _ d1 hd1 with hm | ⟨b, hbfind, hab⟩
          · exact .inl ⟨d1, hm, rfl, .inl rfl⟩
          · have hpe : (fun d : Delivery => decide (d.id = delivery.id)) =
                (fun d : Delivery => decide (d.id = did)) := by
              funext d
              rw [hdid]
            rw [hpe, hfind] at hbfind
            injection hbfind with hbe
            subst hbe
            subst hab
            exact .inl ⟨delivery, List.mem_of_find?_eq_some hfind, rfl,
              .inr (.inl ⟨not_ne_iff.mp hst, rfl⟩)⟩
  | updateFlightStatusOp id newStatus =>
    rw [Op.apply, updateFlightStatus]
    cases hfind : db.flights.find? (fun f => f.id = id) with
    | none => exact transOK_of_deliveries_eq db _ rfl
    | some flight =>
      dsimp only
      cases hparse : FlightStatus.ofString newStatus with
      | none => exact transOK_of_deliveries_eq db _ rfl
      | some st =>
        dsimp only
        by_cases h1 : st = FlightStatus.cancelled ∧
            flight.status ≠ FlightStatus.cancelled
        · rw [if_pos h1]
          rw [if_neg (by rw [h1.1]; simp)]
          exact transOK_of_revertRel db _ (revertDelivery_rel _ _)
        · rw [if_neg h1]
          by_cases h2 : st = FlightStatus.completed
          · rw [if_pos h2]
            exact transOK_of_deliver db _ flight.deliveryId rfl
          · rw [if_neg h2]
            exact transOK_of_deliveries_eq db _ rfl
  | removeFlightOp id =>
    rw [Op.apply, removeFlight]
    cases hfind : db.flights.find? (fun f => f.id = id) with
    | none => exact transOK_of_deliveries_eq db _ rfl
    | some flight =>
      exact transOK_of_revertRel db _ (revertDelivery_rel _ _)

/-- Witness for the amended C6: the cancel-flight revert at the fixture
post-schedule store. -/
theorem delivery_transitions_characterized_witness :
    DeliveryTransOK wDB1
      (Op.apply (.updateFlightStatusOp "f1" "cancelled") wDB1) :=
  delivery_transitions_characterized (.updateFlightStatusOp "f1" "cancelled")
    wDB1

end DroneBackend
